import Mathlib

/-!
Verification of the ACT integrator core (package `integrator`, plus the
`algorithm` interface package) against its natural-language specification.

The Go source is shallowly embedded: collaborators (the robot, the venue
connectors, the environment of the HTTP listener, the scheduling of the
`select` statement) are oracles supplied as parameters, each integrator
method becomes a Lean function returning the list of observable side
effects (a trace of events) together with its returned error (`Option
String`, `none` = the Go `nil`), and run-time panics (close of a closed
channel, nil pointer dereference) are a separate `Outcome` constructor.
-/

namespace ACT

/-- One tradable instrument/pair on a venue; `id` is the stable identifier
returned by `tradeContext.GetID()`. -/
structure TradeContext where
  id : String
deriving DecidableEq, Repr

/-- Observable side effects of the integrator core: calls into the robot
(decision engines), calls into venue connectors, the HTTP server close,
and log lines. -/
inductive Event where
  | createAlgo (id : String)
  | updateAlgo (id : String)
  | destroyAlgo (id : String)
  | startStream (exName : String) (id : String)
  | stopStream (exName : String) (id : String)
  | createArb
  | updateArb
  | destroyArb
  | loopLaunched
  | exchangeCreate (name : String)
  | exchangeInit (name : String)
  | serverClose
  | logMsg (msg : String)
deriving DecidableEq, Repr

/-- Result of running a piece of code that can panic (Go run-time panics:
close of a closed channel, nil pointer dereference). -/
inductive Outcome (α : Type) where
  | ok (a : α)
  | panicked (msg : String)
deriving DecidableEq, Repr

/-- The robot collaborator, as an error oracle: for each operation of the
per-context and cross-venue decision engines, whether the call fails
(`some cause`) or succeeds (`none`). -/
structure Robot where
  createTradeErr : TradeContext → Option String
  updateTradeErr : TradeContext → Option String
  destroyTradeErr : TradeContext → Option String
  createArbitrageErr : Option String
  updateArbitrageErr : Option String
  destroyArbitrageErr : Option String

/-- A venue connector: its name, the finite restartable cursor of trade
contexts, and error oracles for starting and stopping streaming on a
context. -/
structure Exchange where
  name : String
  contexts : List TradeContext
  startStreamingErr : TradeContext → Option String
  stopStreamingErr : TradeContext → Option String

/-- `errors.Wrap(err, msg)`: the wrapped message is `msg ++ ": " ++ cause`. -/
def wrapErr (msg cause : String) : String := msg ++ ": " ++ cause

/-! ## streamingCallback (source lines 79-87)

The callback a venue connector invokes on new market data: forward to
`robot.UpdateTradeAlgorithms(tradeID, tradeContext)`, log on error, and
always return `nil`. -/

def streamingCallback (r : Robot) (ctx : TradeContext) : List Event × Option String :=
  match r.updateTradeErr ctx with
  | some cause =>
      ([Event.updateAlgo ctx.id,
        Event.logMsg ("can not run algorithm (reason = " ++ cause ++ ")")], none)
  | none => ([Event.updateAlgo ctx.id], none)

/-! ## Arbitrage loop and its cancellation (source lines 185-215)

`ArbitrageLoop` runs `select` on the finish channel versus a 500 ms
timer. Go `select` picks uniformly at random among the ready cases, so
each resolved iteration is described by a `SelectStep`: whether the
finish channel was closed (its case ready) when the select resolved, and,
when both cases were ready, which one the runtime picked.
`stopArbitrageTrade` closes the finish channel; in Go, closing an
already-closed channel panics. -/

/-- Events of one `robot.UpdateArbitrageTradeAlgorithms` tick, with the
log line on error. -/
def arbTickEvents (r : Robot) : List Event :=
  Event.updateArb ::
    (match r.updateArbitrageErr with
     | some cause =>
         [Event.logMsg ("can not update arbitrage algorithm (reason = " ++ cause ++ ")")]
     | none => [])

/-- One resolved iteration of the loop's `select`: `closedReady` is true
when the finish channel is closed (so its case is ready); `pickTimer`
records, when both cases are ready, that the runtime picked the timer
case (Go select chooses pseudo-randomly among ready cases). -/
structure SelectStep where
  closedReady : Bool
  pickTimer : Bool
deriving DecidableEq, Repr

/-- The loop body: each iteration the select resolves; the finish case
returns, the timer case runs one update tick and iterates. An empty
schedule means no further select has resolved yet. -/
def ArbitrageLoop (r : Robot) : List SelectStep → List Event
  | [] => []
  | s :: rest =>
      if s.closedReady && !s.pickTimer then []
      else arbTickEvents r ++ ArbitrageLoop r rest

/-- Events of `robot.DestroyArbitrageTradeAlgorithms`, with the log line
on error. -/
def destroyArbEvents (r : Robot) : List Event :=
  Event.destroyArb ::
    (match r.destroyArbitrageErr with
     | some cause =>
         [Event.logMsg ("can not destroy arbitrage algorithm (reason = " ++ cause ++ ")")]
     | none => [])

/-- `stopArbitrageTrade`: `close(i.arbitrageLoopFinishChan)` — panics if
the channel is already closed — then destroys the arbitrage algorithms
(logging, not propagating, a failure) and returns `nil`. The `Bool`
argument and result track whether the finish channel is closed. -/
def stopArbitrageTrade (r : Robot) (chanClosed : Bool) :
    Outcome (Bool × List Event × Option String) :=
  if chanClosed then Outcome.panicked "close of closed channel"
  else Outcome.ok (true, destroyArbEvents r, none)

/-- Two sequential calls of `stopArbitrageTrade`, threading the channel
state; the result is the outcome of the second call (or the first panic). -/
def stopArbitrageTwice (r : Robot) : Outcome (Bool × List Event × Option String) :=
  match stopArbitrageTrade r false with
  | Outcome.panicked m => Outcome.panicked m
  | Outcome.ok (closed, _, _) => stopArbitrageTrade r closed

/-- A robot oracle for concrete counterexamples: every operation succeeds. -/
def allOkRobot : Robot where
  createTradeErr := fun _ => none
  updateTradeErr := fun _ => none
  destroyTradeErr := fun _ => none
  createArbitrageErr := none
  updateArbitrageErr := none
  destroyArbitrageErr := none

/-! ## Claim theorems for C1, C8, C9 -/

/-- Claim C1, counterexample: with a robot whose every operation
succeeds, calling `stopArbitrageTrade` a second time after a first
successful call panics (`close` of a closed channel), refuting the claim
that the second call neither panics nor errors. -/
theorem stopArbitrageTrade_twice_panics :
    stopArbitrageTwice allOkRobot = Outcome.panicked "close of closed channel" := by
  decide

/-- Claim C1, amended: the first `stopArbitrageTrade` call succeeds
(signals cancellation, returns `nil`), but the cancellation signal is
one-shot, not idempotent: a second call panics closing the already-closed
finish channel. -/
theorem stopArbitrageTrade_once_ok_twice_panics (r : Robot) :
    stopArbitrageTrade r false = Outcome.ok (true, destroyArbEvents r, none) ∧
    stopArbitrageTwice r = Outcome.panicked "close of closed channel" := by
  constructor
  · rfl
  · rfl

/-- Claim C8, counterexample: a schedule consisting of one select
resolution in which the finish channel is already closed (cancellation
signaled, so `stopArbitrageTrade` has returned) but the 500 ms timer is
simultaneously ready and the runtime's pseudo-random choice picks the
timer case: the loop still invokes the arbitrage update once after
cancellation — Go `select` gives cancellation no priority. -/
theorem arbitrageLoop_tick_after_cancel :
    (∀ s ∈ [SelectStep.mk true true], s.closedReady = true) ∧
    Event.updateArb ∈ ArbitrageLoop allOkRobot [SelectStep.mk true true] := by
  decide

/-- Claim C8, amended: cancellation is cooperative, checked at the top of
each iteration: once the loop picks the finish case it returns at once
and no further update ever runs; but when the finish case and the timer
are simultaneously ready the select choice is nondeterministic (Go picks
pseudo-randomly), so one more tick may still start after cancellation is
signaled. -/
theorem arbitrageLoop_cancel_behavior (r : Robot) (s : SelectStep)
    (rest : List SelectStep)
    (hclosed : s.closedReady = true) (hpick : s.pickTimer = false) :
    ArbitrageLoop r (s :: rest) = [] ∧
    ArbitrageLoop r (SelectStep.mk true true :: rest) =
      arbTickEvents r ++ ArbitrageLoop r rest := by
  constructor
  · simp [ArbitrageLoop, hclosed, hpick]
  · simp [ArbitrageLoop]

/-- Witness for the amended C8 theorem at a concrete input. -/
theorem arbitrageLoop_cancel_behavior_witness :
    ArbitrageLoop allOkRobot [SelectStep.mk true false] = [] ∧
    ArbitrageLoop allOkRobot [SelectStep.mk true true] =
      arbTickEvents allOkRobot ++ ArbitrageLoop allOkRobot [] :=
  arbitrageLoop_cancel_behavior allOkRobot (SelectStep.mk true false) [] rfl rfl

/-- Claim C9: the streaming callback always forwards the event to the
per-context decision engine's update operation keyed by the context's
identifier, logs on a decision-engine error, and returns `nil` to the
connector in every case. -/
theorem streamingCallback_forwards_and_returns_nil (r : Robot) (ctx : TradeContext) :
    streamingCallback r ctx =
      (Event.updateAlgo ctx.id ::
        (match r.updateTradeErr ctx with
         | some cause =>
             [Event.logMsg ("can not run algorithm (reason = " ++ cause ++ ")")]
         | none => []), none) ∧
    (streamingCallback r ctx).2 = none ∧
    Event.updateAlgo ctx.id ∈ (streamingCallback r ctx).1 := by
  refine ⟨?_, ?_, ?_⟩ <;> cases h : r.updateTradeErr ctx <;>
    simp [streamingCallback, h]

/-! ## Streaming lifecycle manager (source lines 133-183)

`startStreaming` walks every venue's context cursor: create the
per-context decision engine, then open streaming; on either failure it
runs `stopStreaming` over the whole registry and returns a wrapped error
naming the venue. `stopStreaming` re-walks every cursor, stopping
streaming and destroying the decision engine for every context,
logging (never propagating) failures. -/

/-- Events of `stopStreaming` for one context of one venue: the stop call
(logged on failure) followed by the destroy call (logged on failure). -/
def stopStreamingCtxEvents (r : Robot) (ex : Exchange) (c : TradeContext) : List Event :=
  Event.stopStream ex.name c.id ::
    ((match ex.stopStreamingErr c with
      | some _ => [Event.logMsg ("can not stop streaming (name = " ++ ex.name ++ ")")]
      | none => []) ++
     Event.destroyAlgo c.id ::
       (match r.destroyTradeErr c with
        | some cause =>
            [Event.logMsg ("can not destroy algorithm (name = " ++ ex.name ++
              ", reason = " ++ cause ++ ")")]
        | none => []))

/-- The full `stopStreaming` trace: every context of every venue, in
cursor order within each venue. -/
def stopStreamingTrace (r : Robot) (exs : List Exchange) : List Event :=
  exs.flatMap (fun ex => ex.contexts.flatMap (stopStreamingCtxEvents r ex))

/-- `stopStreaming`: best-effort teardown over the whole registry; always
returns `nil`. -/
def stopStreaming (r : Robot) (exs : List Exchange) : List Event × Option String :=
  (stopStreamingTrace r exs, none)

/-- The wrapped error of a decision-engine create failure in
`startStreaming` (message as in the source, including its double space). -/
def createAlgoErrMsg (nm cause : String) : String :=
  wrapErr ("can not create algorithm  (name = " ++ nm ++ ")") cause

/-- The wrapped error of a stream-open failure in `startStreaming`. -/
def startStreamErrMsg (nm cause : String) : String :=
  wrapErr ("can not start streaming (name = " ++ nm ++ ")") cause

/-- The inner loop of `startStreaming` over one venue's cursor. `all` is
the whole registry, rolled back via `stopStreaming` at a failure site. -/
def startStreamingCtxs (r : Robot) (all : List Exchange) (ex : Exchange) :
    List TradeContext → List Event × Option String
  | [] => ([], none)
  | c :: cs =>
      match r.createTradeErr c with
      | some cause =>
          (Event.createAlgo c.id :: stopStreamingTrace r all,
           some (createAlgoErrMsg ex.name cause))
      | none =>
          match ex.startStreamingErr c with
          | some cause =>
              (Event.createAlgo c.id :: Event.startStream ex.name c.id ::
                 stopStreamingTrace r all,
               some (startStreamErrMsg ex.name cause))
          | none =>
              (Event.createAlgo c.id :: Event.startStream ex.name c.id ::
                 (startStreamingCtxs r all ex cs).1,
               (startStreamingCtxs r all ex cs).2)

/-- The outer loop of `startStreaming` over the venues of the registry. -/
def startStreamingExs (r : Robot) (all : List Exchange) :
    List Exchange → List Event × Option String
  | [] => ([], none)
  | ex :: rest =>
      match (startStreamingCtxs r all ex ex.contexts).2 with
      | some e => ((startStreamingCtxs r all ex ex.contexts).1, some e)
      | none =>
          ((startStreamingCtxs r all ex ex.contexts).1 ++
             (startStreamingExs r all rest).1,
           (startStreamingExs r all rest).2)

/-- `startStreaming` over the registry. -/
def startStreaming (r : Robot) (exs : List Exchange) : List Event × Option String :=
  startStreamingExs r exs exs

/-- The canonical event sequence of walking one venue's cursor with every
step succeeding: per context, the decision-engine create followed by the
stream open. -/
def ctxSeq (ex : Exchange) (cs : List TradeContext) : List Event :=
  cs.flatMap (fun c => [Event.createAlgo c.id, Event.startStream ex.name c.id])

/-- The canonical event sequence of a fully successful `startStreaming`:
for every context of every venue, in order, the create followed by the
stream open. -/
def fullStartSeq (exs : List Exchange) : List Event :=
  exs.flatMap (fun ex => ctxSeq ex ex.contexts)

/-- An event of the start phase of `startStreaming`: a decision-engine
create or a stream open. -/
def startPhase : Event → Prop
  | Event.createAlgo _ => True
  | Event.startStream _ _ => True
  | _ => False

instance : DecidablePred startPhase := by
  intro ev
  cases ev <;> simp [startPhase] <;> infer_instance

/-! ## startArbitrage and Start (source lines 199-206 and 217-227) -/

/-- `startArbitrage`: create the arbitrage algorithm (wrapped error on
failure, loop not launched); on success launch the loop task. -/
def startArbitrage (r : Robot) : List Event × Option String :=
  match r.createArbitrageErr with
  | some cause =>
      ([Event.createArb], some (wrapErr "can not create arbitrage algorithm" cause))
  | none => ([Event.createArb, Event.loopLaunched], none)

/-- `Start`: `startStreaming` then `startArbitrage`, each failure wrapped
and returned; no rollback is performed by `Start` itself. -/
def Start (r : Robot) (exs : List Exchange) : List Event × Option String :=
  match (startStreaming r exs).2 with
  | some e => ((startStreaming r exs).1, some (wrapErr "can not start streaming" e))
  | none =>
      match (startArbitrage r).2 with
      | some e =>
          ((startStreaming r exs).1 ++ (startArbitrage r).1,
           some (wrapErr "can not start arbitarage" e))
      | none => ((startStreaming r exs).1 ++ (startArbitrage r).1, none)

/-! ## Helper lemmas on the streaming traces -/

lemma createArb_not_mem_stopCtxEvents (r : Robot) (ex : Exchange) (c : TradeContext) :
    Event.createArb ∉ stopStreamingCtxEvents r ex c := by
  unfold stopStreamingCtxEvents
  cases h1 : ex.stopStreamingErr c <;> cases h2 : r.destroyTradeErr c <;> simp

lemma createArb_not_mem_stopTrace (r : Robot) (exs : List Exchange) :
    Event.createArb ∉ stopStreamingTrace r exs := by
  intro h
  rw [stopStreamingTrace, List.mem_flatMap] at h
  obtain ⟨ex, _, h⟩ := h
  rw [List.mem_flatMap] at h
  obtain ⟨c, _, h⟩ := h
  exact createArb_not_mem_stopCtxEvents r ex c h

lemma fullStartSeq_shape (exs : List Exchange) :
    ∀ ev ∈ fullStartSeq exs, startPhase ev := by
  intro ev hev
  rw [fullStartSeq, List.mem_flatMap] at hev
  obtain ⟨ex, _, hev⟩ := hev
  rw [ctxSeq, List.mem_flatMap] at hev
  obtain ⟨c, _, hev⟩ := hev
  simp at hev
  rcases hev with rfl | rfl <;> trivial

lemma startStreamingCtxs_success (r : Robot) (all : List Exchange) (ex : Exchange) :
    ∀ cs, (startStreamingCtxs r all ex cs).2 = none →
      (startStreamingCtxs r all ex cs).1 = ctxSeq ex cs := by
  intro cs
  induction cs with
  | nil => intro _; simp [startStreamingCtxs, ctxSeq]
  | cons c cs ih =>
    intro h
    cases h1 : r.createTradeErr c with
    | some cause => simp [startStreamingCtxs, h1] at h
    | none =>
      cases h2 : ex.startStreamingErr c with
      | some cause => simp [startStreamingCtxs, h1, h2] at h
      | none =>
        have h' : (startStreamingCtxs r all ex cs).2 = none := by
          simpa [startStreamingCtxs, h1, h2] using h
        simp [startStreamingCtxs, h1, h2, ctxSeq, ih h']

lemma startStreamingExs_success (r : Robot) (all : List Exchange) :
    ∀ exs, (startStreamingExs r all exs).2 = none →
      (startStreamingExs r all exs).1 = fullStartSeq exs := by
  intro exs
  induction exs with
  | nil => intro _; simp [startStreamingExs, fullStartSeq]
  | cons ex rest ih =>
    intro h
    cases h1 : (startStreamingCtxs r all ex ex.contexts).2 with
    | some e => simp [startStreamingExs, h1] at h
    | none =>
      have h' : (startStreamingExs r all rest).2 = none := by
        simpa [startStreamingExs, h1] using h
      simp [startStreamingExs, h1, fullStartSeq, ih h',
        startStreamingCtxs_success r all ex ex.contexts h1]

lemma startStreamingCtxs_allOk (r : Robot) (all : List Exchange) (ex : Exchange) :
    ∀ cs, (∀ c ∈ cs, r.createTradeErr c = none ∧ ex.startStreamingErr c = none) →
      (startStreamingCtxs r all ex cs).2 = none := by
  intro cs
  induction cs with
  | nil => intro _; rfl
  | cons c cs ih =>
    intro h
    obtain ⟨h1, h2⟩ := h c (List.mem_cons_self c cs)
    simp [startStreamingCtxs, h1, h2,
      ih (fun x hx => h x (List.mem_cons_of_mem _ hx))]

lemma startStreamingExs_allOk (r : Robot) (all : List Exchange) :
    ∀ exs, (∀ ex ∈ exs, ∀ c ∈ ex.contexts,
        r.createTradeErr c = none ∧ ex.startStreamingErr c = none) →
      (startStreamingExs r all exs).2 = none := by
  intro exs
  induction exs with
  | nil => intro _; rfl
  | cons ex rest ih =>
    intro h
    have h1 := startStreamingCtxs_allOk r all ex ex.contexts
      (h ex (List.mem_cons_self ex rest))
    simp [startStreamingExs, h1,
      ih (fun x hx => h x (List.mem_cons_of_mem _ hx))]

lemma startStreamingCtxs_failure (r : Robot) (all : List Exchange) (ex : Exchange) :
    ∀ cs e, (startStreamingCtxs r all ex cs).2 = some e →
      (∃ cause, e = createAlgoErrMsg ex.name cause ∨ e = startStreamErrMsg ex.name cause) ∧
      ∃ pre, (startStreamingCtxs r all ex cs).1 = pre ++ stopStreamingTrace r all ∧
        pre <+: ctxSeq ex cs := by
  intro cs
  induction cs with
  | nil => intro e h; simp [startStreamingCtxs] at h
  | cons c cs ih =>
    intro e h
    cases h1 : r.createTradeErr c with
    | some cause =>
      simp [startStreamingCtxs, h1] at h
      refine ⟨⟨cause, Or.inl h.symm⟩, [Event.createAlgo c.id], ?_, ?_⟩
      · simp [startStreamingCtxs, h1]
      · exact ⟨Event.startStream ex.name c.id :: ctxSeq ex cs, by simp [ctxSeq]⟩
    | none =>
      cases h2 : ex.startStreamingErr c with
      | some cause =>
        simp [startStreamingCtxs, h1, h2] at h
        refine ⟨⟨cause, Or.inr h.symm⟩,
          [Event.createAlgo c.id, Event.startStream ex.name c.id], ?_, ?_⟩
        · simp [startStreamingCtxs, h1, h2]
        · exact ⟨ctxSeq ex cs, by simp [ctxSeq]⟩
      | none =>
        have h' : (startStreamingCtxs r all ex cs).2 = some e := by
          simpa [startStreamingCtxs, h1, h2] using h
        obtain ⟨hmsg, pre, htr, hpre⟩ := ih e h'
        refine ⟨hmsg,
          Event.createAlgo c.id :: Event.startStream ex.name c.id :: pre, ?_, ?_⟩
        · simp [startStreamingCtxs, h1, h2, htr]
        · obtain ⟨t, ht⟩ := hpre
          exact ⟨t, by simp [ctxSeq, ht]⟩

lemma startStreamingExs_failure (r : Robot) (all : List Exchange) :
    ∀ exs e, (startStreamingExs r all exs).2 = some e →
      (∃ ex ∈ exs, ∃ cause,
         e = createAlgoErrMsg ex.name cause ∨ e = startStreamErrMsg ex.name cause) ∧
      ∃ pre, (startStreamingExs r all exs).1 = pre ++ stopStreamingTrace r all ∧
        pre <+: fullStartSeq exs := by
  intro exs
  induction exs with
  | nil => intro e h; simp [startStreamingExs] at h
  | cons ex rest ih =>
    intro e h
    cases h1 : (startStreamingCtxs r all ex ex.contexts).2 with
    | some e0 =>
      have he : e0 = e := by simpa [startStreamingExs, h1] using h
      subst he
      obtain ⟨hmsg, pre, htr, hpre⟩ :=
        startStreamingCtxs_failure r all ex ex.contexts e0 h1
      refine ⟨⟨ex, List.mem_cons_self ex rest, hmsg⟩, pre, ?_, ?_⟩
      · simpa [startStreamingExs, h1] using htr
      · obtain ⟨t, ht⟩ := hpre
        exact ⟨t ++ fullStartSeq rest, by simp [fullStartSeq, ← ht]⟩
    | none =>
      have h' : (startStreamingExs r all rest).2 = some e := by
        simpa [startStreamingExs, h1] using h
      obtain ⟨⟨ex2, hex2, hmsg⟩, pre, htr, hpre⟩ := ih e h'
      refine ⟨⟨ex2, List.mem_cons_of_mem _ hex2, hmsg⟩,
        ctxSeq ex ex.contexts ++ pre, ?_, ?_⟩
      · have hsucc := startStreamingCtxs_success r all ex ex.contexts h1
        simp [startStreamingExs, h1, hsucc, htr]
      · obtain ⟨t, ht⟩ := hpre
        exact ⟨t, by simp [fullStartSeq, ht]⟩

lemma startStreaming_success (r : Robot) (exs : List Exchange) :
    (startStreaming r exs).2 = none → (startStreaming r exs).1 = fullStartSeq exs :=
  startStreamingExs_success r exs exs

lemma startStreaming_failure (r : Robot) (exs : List Exchange) :
    ∀ e, (startStreaming r exs).2 = some e →
      (∃ ex ∈ exs, ∃ cause,
         e = createAlgoErrMsg ex.name cause ∨ e = startStreamErrMsg ex.name cause) ∧
      ∃ pre, (startStreaming r exs).1 = pre ++ stopStreamingTrace r exs ∧
        pre <+: fullStartSeq exs :=
  startStreamingExs_failure r exs exs

/-! ## Concrete fixtures for witnesses and counterexamples -/

/-- A venue whose single context streams successfully. -/
def okEx : Exchange where
  name := "zaif"
  contexts := [⟨"btc_jpy"⟩]
  startStreamingErr := fun _ => none
  stopStreamingErr := fun _ => none

/-- A venue whose single context fails to open streaming. -/
def failEx : Exchange where
  name := "bitflyer"
  contexts := [⟨"btc_jpy"⟩]
  startStreamingErr := fun _ => some "boom"
  stopStreamingErr := fun _ => none

/-- A venue whose stream-stop fails (for best-effort teardown witnesses). -/
def badStopEx : Exchange where
  name := "quoine"
  contexts := [⟨"eth_jpy"⟩]
  startStreamingErr := fun _ => none
  stopStreamingErr := fun _ => some "conn reset"

/-- A robot whose per-context destroy fails. -/
def badDestroyRobot : Robot :=
  { allOkRobot with destroyTradeErr := fun _ => some "bad state" }

/-- A robot whose arbitrage-algorithm create fails. -/
def arbFailRobot : Robot :=
  { allOkRobot with createArbitrageErr := some "noarb" }

/-! ## Claim theorems for C5, C6, C7 -/

/-- Claim C5: if decision-engine creation or stream-open fails for any
context during `startStreaming`, the whole operation fails: the trace is
the attempted start-phase prefix (a prefix of the canonical full walk, so
no later context or venue is attempted) followed by the full
`stopStreaming` rollback over the whole registry, and the returned error
is the wrapped message naming the failing venue; if every creation and
open succeeds, `startStreaming` returns `nil`. -/
theorem startStreaming_spec (r : Robot) (exs : List Exchange) :
    ((∀ ex ∈ exs, ∀ c ∈ ex.contexts,
        r.createTradeErr c = none ∧ ex.startStreamingErr c = none) →
      (startStreaming r exs).2 = none) ∧
    (∀ e, (startStreaming r exs).2 = some e →
      (∃ ex ∈ exs, ∃ cause,
         e = createAlgoErrMsg ex.name cause ∨ e = startStreamErrMsg ex.name cause) ∧
      ∃ pre, (startStreaming r exs).1 = pre ++ stopStreamingTrace r exs ∧
        pre <+: fullStartSeq exs) :=
  ⟨fun h => startStreamingExs_allOk r exs exs h, startStreaming_failure r exs⟩

/-- Witness for C5 at concrete inputs: an all-successful venue returns
`nil`; a venue whose single context fails to open yields the wrapped
error naming the venue and the rollback-suffixed trace. -/
theorem startStreaming_spec_witness :
    (startStreaming allOkRobot [okEx]).2 = none ∧
    ((∃ ex ∈ [failEx], ∃ cause,
        startStreamErrMsg "bitflyer" "boom" = createAlgoErrMsg ex.name cause ∨
        startStreamErrMsg "bitflyer" "boom" = startStreamErrMsg ex.name cause) ∧
     ∃ pre, (startStreaming allOkRobot [failEx]).1 =
         pre ++ stopStreamingTrace allOkRobot [failEx] ∧
       pre <+: fullStartSeq [failEx]) :=
  ⟨(startStreaming_spec allOkRobot [okEx]).1 (by decide),
   (startStreaming_spec allOkRobot [failEx]).2
     (startStreamErrMsg "bitflyer" "boom") (by decide)⟩

/-- Claim C6: `stopStreaming` is best-effort: it always returns `nil`,
its iteration reaches every context of every venue (the stop call and the
destroy call both appear in the trace for each of them), and a failure of
stream-stop or of decision-engine destroy is logged without stopping the
iteration. -/
theorem stopStreaming_spec (r : Robot) (exs : List Exchange) :
    (stopStreaming r exs).2 = none ∧
    ∀ ex ∈ exs, ∀ c ∈ ex.contexts,
      Event.stopStream ex.name c.id ∈ (stopStreaming r exs).1 ∧
      Event.destroyAlgo c.id ∈ (stopStreaming r exs).1 ∧
      (∀ cause, ex.stopStreamingErr c = some cause →
        Event.logMsg ("can not stop streaming (name = " ++ ex.name ++ ")") ∈
          (stopStreaming r exs).1) ∧
      (∀ cause, r.destroyTradeErr c = some cause →
        Event.logMsg ("can not destroy algorithm (name = " ++ ex.name ++
            ", reason = " ++ cause ++ ")") ∈ (stopStreaming r exs).1) := by
  refine ⟨rfl, ?_⟩
  intro ex hex c hc
  have hlift : ∀ ev, ev ∈ stopStreamingCtxEvents r ex c → ev ∈ (stopStreaming r exs).1 := by
    intro ev hev
    rw [stopStreaming, stopStreamingTrace]
    rw [List.mem_flatMap]
    exact ⟨ex, hex, by rw [List.mem_flatMap]; exact ⟨c, hc, hev⟩⟩
  refine ⟨hlift _ ?_, hlift _ ?_, fun cause hcause => hlift _ ?_,
    fun cause hcause => hlift _ ?_⟩
  · simp [stopStreamingCtxEvents]
  · cases h1 : ex.stopStreamingErr c <;> simp [stopStreamingCtxEvents, h1]
  · simp [stopStreamingCtxEvents, hcause]
  · cases h1 : ex.stopStreamingErr c <;> simp [stopStreamingCtxEvents, h1, hcause]

/-- Witness for C6 at a concrete input: one venue whose stream-stop fails
and a robot whose destroy fails; teardown still reaches the context, logs
both failures, and returns `nil`. -/
theorem stopStreaming_spec_witness :
    (stopStreaming badDestroyRobot [badStopEx]).2 = none ∧
    Event.stopStream "quoine" "eth_jpy" ∈ (stopStreaming badDestroyRobot [badStopEx]).1 ∧
    Event.destroyAlgo "eth_jpy" ∈ (stopStreaming badDestroyRobot [badStopEx]).1 ∧
    Event.logMsg "can not stop streaming (name = quoine)" ∈
      (stopStreaming badDestroyRobot [badStopEx]).1 ∧
    Event.logMsg "can not destroy algorithm (name = quoine, reason = bad state)" ∈
      (stopStreaming badDestroyRobot [badStopEx]).1 := by
  have h := stopStreaming_spec badDestroyRobot [badStopEx]
  have h2 := h.2 badStopEx (List.mem_singleton.mpr rfl)
    ⟨"eth_jpy"⟩ (List.mem_singleton.mpr rfl)
  exact ⟨h.1, h2.1, h2.2.1, h2.2.2.1 "conn reset" rfl, h2.2.2.2 "bad state" rfl⟩

/-- Claim C7: `Start` runs `startStreaming` then `startArbitrage` in that
order; if streaming fails, `startArbitrage` is never invoked (the trace
is exactly the streaming trace, containing no arbitrage-create event) and
`Start` returns the wrapped error; if the arbitrage create fails after
streaming succeeded, `Start` returns the wrapped error with streaming
left running (no stream-stop occurs and no loop is launched); if both
succeed, `Start` returns `nil`. -/
theorem Start_spec (r : Robot) (exs : List Exchange) :
    (∀ e, (startStreaming r exs).2 = some e →
      Start r exs = ((startStreaming r exs).1, some (wrapErr "can not start streaming" e)) ∧
      Event.createArb ∉ (Start r exs).1) ∧
    ((startStreaming r exs).2 = none →
      (∀ cause, r.createArbitrageErr = some cause →
        Start r exs = (fullStartSeq exs ++ [Event.createArb],
          some (wrapErr "can not start arbitarage"
            (wrapErr "can not create arbitrage algorithm" cause))) ∧
        (∀ nm cid, Event.stopStream nm cid ∉ (Start r exs).1) ∧
        Event.loopLaunched ∉ (Start r exs).1) ∧
      (r.createArbitrageErr = none → (Start r exs).2 = none)) := by
  constructor
  · intro e hfail
    have heq : Start r exs =
        ((startStreaming r exs).1, some (wrapErr "can not start streaming" e)) := by
      simp [Start, hfail]
    refine ⟨heq, ?_⟩
    rw [heq]
    obtain ⟨_, pre, htr, hpre⟩ := startStreaming_failure r exs e hfail
    rw [htr]
    intro hmem
    rcases List.mem_append.mp hmem with hmem | hmem
    · have := fullStartSeq_shape exs _ (hpre.sublist.subset hmem)
      simp [startPhase] at this
    · exact createArb_not_mem_stopTrace r exs hmem
  · intro hok
    have htr := startStreaming_success r exs hok
    constructor
    · intro cause hcause
      have heq : Start r exs = (fullStartSeq exs ++ [Event.createArb],
          some (wrapErr "can not start arbitarage"
            (wrapErr "can not create arbitrage algorithm" cause))) := by
        simp [Start, hok, startArbitrage, hcause, htr]
      refine ⟨heq, ?_, ?_⟩
      · intro nm cid hmem
        rw [heq] at hmem
        rcases List.mem_append.mp hmem with hmem | hmem
        · have := fullStartSeq_shape exs _ hmem
          simp [startPhase] at this
        · simp at hmem
      · intro hmem
        rw [heq] at hmem
        rcases List.mem_append.mp hmem with hmem | hmem
        · have := fullStartSeq_shape exs _ hmem
          simp [startPhase] at this
        · simp at hmem
    · intro hnone
      simp [Start, hok, startArbitrage, hnone]

/-! ## Control-plane server, Initialize and Finalize (source lines 50-77,
89-131, 241-251)

`Config.exchanges` embeds the `*exchangesConfig` pointer: `none` is the
nil pointer, `some kvs` the struct value, abstracted as the association
of config tag to the venue sub-document of each non-nil field (the
concrete `exchangesConfig` struct lies outside the shown slice, so the
field-tag list of its type and the per-field values are quantified over).
The reflection loop of `Initialize` walks the field tags of the struct
type; for a tag matching a registered venue name it checks, in source
order, that the `Exchanges` pointer is non-nil, that the field value is
non-nil, and that the constructor is non-nil, skipping silently
otherwise. -/

/-- The live `manners.GracefulServer` handle. -/
structure ServerHandle where
  addr : String
deriving DecidableEq, Repr

/-- The `serverConfig` sub-document. -/
structure ServerConfig where
  debug : Bool
  addrPort : String
deriving DecidableEq, Repr

/-- The parts of `Config` the core reads during `Initialize`. -/
structure Config where
  server : ServerConfig
  exchanges : Option (List (String × String))

/-- `reflect.Value.FieldByName` followed by the nil check: the
sub-document of the first field carrying the tag, if non-nil. -/
def lookupConf : List (String × String) → String → Option String
  | [], _ => none
  | (k, v) :: rest, tag => if k = tag then some v else lookupConf rest tag

/-- A registered venue constructor (`exchange.NewFunc`): from the venue
sub-document, the connector or an error. -/
def NewFunc : Type := String → Except String Unit

/-- The `Integrator` fields the server/registry claims depend on: the
graceful-server handle (nil until a non-empty address is configured) and
the live venue registry. -/
structure IntegratorState where
  gracefulServer : Option ServerHandle
  exchanges : List String
deriving DecidableEq, Repr

/-- `initHttpServer`: empty address is a no-op (no handle, no error);
otherwise the handle is stored, the listener goroutine starts, and a
bind/serve error delivered within the one-second window (`bindErr`) is
wrapped and returned, the handle staying set either way. -/
def initHttpServer (cfg : Config) (bindErr : Option String) :
    Option ServerHandle × Option String :=
  if cfg.server.addrPort = "" then (none, none)
  else
    match bindErr with
    | some cause =>
        (some ⟨cfg.server.addrPort⟩,
         some (wrapErr ("can not start http server (" ++ cfg.server.addrPort ++ ")") cause))
    | none => (some ⟨cfg.server.addrPort⟩, none)

/-- `Finalize`: `i.gracefulServer.server.BlockingClose()` with no nil
check — a nil handle is a nil pointer dereference panic; otherwise the
blocking close, and `nil` is returned. -/
def Finalize (st : IntegratorState) : Outcome (List Event × Option String) :=
  match st.gracefulServer with
  | none => Outcome.panicked "invalid memory address or nil pointer dereference"
  | some _ => Outcome.ok ([Event.serverClose], none)

/-- The field scan of `Initialize` for one registered venue `name`: walk
the struct field tags; on the matching tag, if the `Exchanges` pointer,
the field value and the constructor are all non-nil, log the create and
run the constructor — on constructor error run `Finalize` (which may
panic) and return the wrapped error; on success initialize and record the
venue and continue with the remaining fields. -/
def initFieldsLoop (cfg : Config) (name : String) (newFunc : Option NewFunc)
    (st : IntegratorState) :
    List String → Outcome (IntegratorState × List Event × Option String)
  | [] => Outcome.ok (st, [], none)
  | tag :: rest =>
      if tag = name then
        match cfg.exchanges with
        | none => initFieldsLoop cfg name newFunc st rest
        | some kvs =>
            match lookupConf kvs tag with
            | none => initFieldsLoop cfg name newFunc st rest
            | some conf =>
                match newFunc with
                | none => initFieldsLoop cfg name newFunc st rest
                | some f =>
                    match f conf with
                    | Except.error cause =>
                        match Finalize st with
                        | Outcome.panicked m => Outcome.panicked m
                        | Outcome.ok (ftr, _) =>
                            Outcome.ok (st, Event.exchangeCreate name :: ftr,
                              some (wrapErr ("can not create exchange of " ++ name) cause))
                    | Except.ok _ =>
                        match initFieldsLoop cfg name newFunc
                            { st with exchanges := st.exchanges ++ [name] } rest with
                        | Outcome.panicked m => Outcome.panicked m
                        | Outcome.ok (st2, tr, res) =>
                            Outcome.ok (st2,
                              Event.exchangeCreate name :: Event.exchangeInit name :: tr,
                              res)
      else initFieldsLoop cfg name newFunc st rest

/-- The registry loop of `Initialize` over the registered venue
constructors; a venue failure stops the whole loop. -/
def initExchangesLoop (cfg : Config) (fieldTags : List String) :
    List (String × Option NewFunc) → IntegratorState →
      Outcome (IntegratorState × List Event × Option String)
  | [], st => Outcome.ok (st, [], none)
  | (name, nf) :: rest, st =>
      match initFieldsLoop cfg name nf st fieldTags with
      | Outcome.panicked m => Outcome.panicked m
      | Outcome.ok (st1, tr1, some e) => Outcome.ok (st1, tr1, some e)
      | Outcome.ok (st1, tr1, none) =>
          match initExchangesLoop cfg fieldTags rest st1 with
          | Outcome.panicked m => Outcome.panicked m
          | Outcome.ok (st2, tr2, res) => Outcome.ok (st2, tr1 ++ tr2, res)

/-- `Initialize`: run `initHttpServer`, then the venue registry loop. The
source checks the server error but only builds a message with
`errors.Errorf` and discards it — there is no `return`, so the error
never aborts `Initialize`; the handle (set even when the bind fails) is
all that remains of the server step. -/
def Initialize (cfg : Config) (fieldTags : List String)
    (registered : List (String × Option NewFunc)) (bindErr : Option String) :
    Outcome (IntegratorState × List Event × Option String) :=
  initExchangesLoop cfg fieldTags registered
    { gracefulServer := (initHttpServer cfg bindErr).1, exchanges := [] }

/-! ## Helper lemmas on the Initialize loops -/

lemma initFieldsLoop_server_eq (cfg : Config) (name : String) (nf : Option NewFunc) :
    ∀ tags st st1 tr res,
      initFieldsLoop cfg name nf st tags = Outcome.ok (st1, tr, res) →
      st1.gracefulServer = st.gracefulServer := by
  intro tags
  induction tags with
  | nil =>
    intro st st1 tr res h
    simp only [initFieldsLoop, Outcome.ok.injEq, Prod.mk.injEq] at h
    rw [← h.1]
  | cons tag rest ih =>
    intro st st1 tr res h
    by_cases htag : tag = name
    · cases hexch : cfg.exchanges with
      | none =>
        simp only [initFieldsLoop, if_pos htag, hexch] at h
        exact ih _ _ _ _ h
      | some kvs =>
        cases hlook : lookupConf kvs tag with
        | none =>
          simp only [initFieldsLoop, if_pos htag, hexch, hlook] at h
          exact ih _ _ _ _ h
        | some conf =>
          cases nf with
          | none =>
            simp only [initFieldsLoop, if_pos htag, hexch, hlook] at h
            exact ih _ _ _ _ h
          | some f =>
            cases hfc : f conf with
            | error cause =>
              cases hfin : Finalize st with
              | panicked m =>
                simp [initFieldsLoop, if_pos htag, hexch, hlook, hfc, hfin] at h
              | ok p =>
                obtain ⟨ftr, fres⟩ := p
                simp only [initFieldsLoop, if_pos htag, hexch, hlook, hfc, hfin,
                  Outcome.ok.injEq, Prod.mk.injEq] at h
                rw [← h.1]
            | ok u =>
              cases hrec : initFieldsLoop cfg name (some f)
                  { st with exchanges := st.exchanges ++ [name] } rest with
              | panicked m =>
                simp [initFieldsLoop, if_pos htag, hexch, hlook, hfc, hrec] at h
              | ok q =>
                obtain ⟨st2, tr2, res2⟩ := q
                simp only [initFieldsLoop, if_pos htag, hexch, hlook, hfc, hrec,
                  Outcome.ok.injEq, Prod.mk.injEq] at h
                have hih := ih _ _ _ _ hrec
                rw [← h.1, hih]
    · simp only [initFieldsLoop, if_neg htag] at h
      exact ih _ _ _ _ h

lemma initExchangesLoop_server_eq (cfg : Config) (tags : List String) :
    ∀ regs st st1 tr res,
      initExchangesLoop cfg tags regs st = Outcome.ok (st1, tr, res) →
      st1.gracefulServer = st.gracefulServer := by
  intro regs
  induction regs with
  | nil =>
    intro st st1 tr res h
    simp only [initExchangesLoop, Outcome.ok.injEq, Prod.mk.injEq] at h
    rw [← h.1]
  | cons p rest ih =>
    obtain ⟨name, nf⟩ := p
    intro st st1 tr res h
    cases hf : initFieldsLoop cfg name nf st tags with
    | panicked m => simp [initExchangesLoop, hf] at h
    | ok q =>
      obtain ⟨stm, trm, resm⟩ := q
      have hsrvm := initFieldsLoop_server_eq cfg name nf tags st stm trm resm hf
      cases resm with
      | some e =>
        simp only [initExchangesLoop, hf, Outcome.ok.injEq, Prod.mk.injEq] at h
        rw [← h.1, hsrvm]
      | none =>
        cases hrec : initExchangesLoop cfg tags rest stm with
        | panicked m => simp [initExchangesLoop, hf, hrec] at h
        | ok q2 =>
          obtain ⟨st2, tr2, res2⟩ := q2
          simp only [initExchangesLoop, hf, hrec, Outcome.ok.injEq, Prod.mk.injEq] at h
          have hih := ih stm st2 tr2 res2 hrec
          rw [← h.1, hih, hsrvm]

lemma initFieldsLoop_nilExchanges (cfg : Config) (name : String) (nf : Option NewFunc)
    (hexch : cfg.exchanges = none) :
    ∀ tags st, initFieldsLoop cfg name nf st tags = Outcome.ok (st, [], none) := by
  intro tags
  induction tags with
  | nil => intro st; rfl
  | cons tag rest ih =>
    intro st
    by_cases htag : tag = name <;> simp [initFieldsLoop, htag, hexch, ih]

lemma initExchangesLoop_nilExchanges (cfg : Config) (tags : List String)
    (hexch : cfg.exchanges = none) :
    ∀ regs st, initExchangesLoop cfg tags regs st = Outcome.ok (st, [], none) := by
  intro regs
  induction regs with
  | nil => intro st; rfl
  | cons p rest ih =>
    obtain ⟨name, nf⟩ := p
    intro st
    simp [initExchangesLoop, initFieldsLoop_nilExchanges cfg name nf hexch tags, ih]

lemma initFieldsLoop_spec (cfg : Config) (name : String) (nf : Option NewFunc) :
    ∀ tags st, st.gracefulServer ≠ none →
      ∃ st1 tr res, initFieldsLoop cfg name nf st tags = Outcome.ok (st1, tr, res) ∧
        st1.gracefulServer = st.gracefulServer ∧
        (∀ n, n ∈ st.exchanges → n ∈ st1.exchanges) ∧
        (∀ n, Event.exchangeInit n ∈ tr → n ∈ st1.exchanges) ∧
        (res = none → Event.serverClose ∉ tr) ∧
        (∀ e, res = some e → ∃ tr0 cause, tr = tr0 ++ [Event.serverClose] ∧
          Event.serverClose ∉ tr0 ∧
          e = wrapErr ("can not create exchange of " ++ name) cause) := by
  intro tags
  induction tags with
  | nil =>
    intro st _
    exact ⟨st, [], none, rfl, rfl, fun n h => h, by simp, by simp, by simp⟩
  | cons tag rest ih =>
    intro st hsrv
    by_cases htag : tag = name
    · cases hexch : cfg.exchanges with
      | none =>
        simp only [initFieldsLoop, if_pos htag, hexch]
        exact ih st hsrv
      | some kvs =>
        cases hlook : lookupConf kvs tag with
        | none =>
          simp only [initFieldsLoop, if_pos htag, hexch, hlook]
          exact ih st hsrv
        | some conf =>
          cases nf with
          | none =>
            simp only [initFieldsLoop, if_pos htag, hexch, hlook]
            exact ih st hsrv
          | some f =>
            cases hfc : f conf with
            | error cause =>
              obtain ⟨sh, hsh⟩ := Option.ne_none_iff_exists'.mp hsrv
              have hfin : Finalize st = Outcome.ok ([Event.serverClose], none) := by
                simp [Finalize, hsh]
              refine ⟨st, [Event.exchangeCreate name, Event.serverClose],
                some (wrapErr ("can not create exchange of " ++ name) cause),
                ?_, rfl, fun n h => h, ?_, ?_, ?_⟩
              · simp only [initFieldsLoop, if_pos htag, hexch, hlook, hfc, hfin]
              · intro n hn; simp at hn
              · intro hcontra; simp at hcontra
              · intro e he
                simp only [Option.some.injEq] at he
                exact ⟨[Event.exchangeCreate name], cause, by simp, by simp, he.symm⟩
            | ok u =>
              have hsrv2 :
                  ({ st with exchanges := st.exchanges ++ [name] } :
                    IntegratorState).gracefulServer ≠ none := hsrv
              obtain ⟨st2, tr2, res2, heq, hsv, hmono, hinit, hnone, hsome⟩ :=
                ih { st with exchanges := st.exchanges ++ [name] } hsrv2
              refine ⟨st2, Event.exchangeCreate name :: Event.exchangeInit name :: tr2,
                res2, ?_, hsv, ?_, ?_, ?_, ?_⟩
              · simp only [initFieldsLoop, if_pos htag, hexch, hlook, hfc, heq]
              · intro n hn
                exact hmono n (List.mem_append_left _ hn)
              · intro n hn
                simp only [List.mem_cons] at hn
                rcases hn with hn | hn | hn
                · exact absurd hn (by simp)
                · have hr : n = name := by simpa using hn
                  subst hr
                  exact hmono n (List.mem_append_right _ (List.mem_singleton.mpr rfl))
                · exact hinit n hn
              · intro h0 hcl
                simp only [List.mem_cons] at hcl
                rcases hcl with hcl | hcl | hcl
                · exact absurd hcl (by simp)
                · exact absurd hcl (by simp)
                · exact hnone h0 hcl
              · intro e he
                obtain ⟨tr0, cause, htr2, hncl, hmsg⟩ := hsome e he
                refine ⟨Event.exchangeCreate name :: Event.exchangeInit name :: tr0,
                  cause, by simp [htr2], ?_, hmsg⟩
                simp only [List.mem_cons]
                push_neg
                exact ⟨by simp, by simp, hncl⟩
    · simp only [initFieldsLoop, if_neg htag]
      exact ih st hsrv

lemma initExchangesLoop_spec (cfg : Config) (tags : List String) :
    ∀ regs st, st.gracefulServer ≠ none →
      ∃ st1 tr res, initExchangesLoop cfg tags regs st = Outcome.ok (st1, tr, res) ∧
        st1.gracefulServer = st.gracefulServer ∧
        (∀ n, n ∈ st.exchanges → n ∈ st1.exchanges) ∧
        (∀ n, Event.exchangeInit n ∈ tr → n ∈ st1.exchanges) ∧
        (res = none → Event.serverClose ∉ tr) ∧
        (∀ e, res = some e → ∃ tr0 nm cause, tr = tr0 ++ [Event.serverClose] ∧
          Event.serverClose ∉ tr0 ∧ nm ∈ regs.map Prod.fst ∧
          e = wrapErr ("can not create exchange of " ++ nm) cause) := by
  intro regs
  induction regs with
  | nil =>
    intro st _
    exact ⟨st, [], none, rfl, rfl, fun n h => h, by simp, by simp, by simp⟩
  | cons p rest ih =>
    obtain ⟨name, nf⟩ := p
    intro st hsrv
    obtain ⟨st1, tr1, res1, heq1, hsv1, hmono1, hinit1, hnone1, hsome1⟩ :=
      initFieldsLoop_spec cfg name nf tags st hsrv
    cases res1 with
    | some e =>
      refine ⟨st1, tr1, some e, ?_, hsv1, hmono1, hinit1, ?_, ?_⟩
      · simp only [initExchangesLoop, heq1]
      · intro hcontra; simp at hcontra
      · intro e2 he2
        simp only [Option.some.injEq] at he2
        subst he2
        obtain ⟨tr0, cause, htr, hncl, hmsg⟩ := hsome1 e rfl
        exact ⟨tr0, name, cause, htr, hncl, by simp, hmsg⟩
    | none =>
      have hsrv1 : st1.gracefulServer ≠ none := by rw [hsv1]; exact hsrv
      obtain ⟨st2, tr2, res2, heq2, hsv2, hmono2, hinit2, hnone2, hsome2⟩ :=
        ih st1 hsrv1
      refine ⟨st2, tr1 ++ tr2, res2, ?_, hsv2.trans hsv1, ?_, ?_, ?_, ?_⟩
      · simp only [initExchangesLoop, heq1, heq2]
      · intro n hn
        exact hmono2 n (hmono1 n hn)
      · intro n hn
        rcases List.mem_append.mp hn with hn | hn
        · exact hmono2 n (hinit1 n hn)
        · exact hinit2 n hn
      · intro h0 hcl
        rcases List.mem_append.mp hcl with hcl | hcl
        · exact hnone1 rfl hcl
        · exact hnone2 h0 hcl
      · intro e he
        obtain ⟨tr0, nm, cause, htr, hncl, hnm, hmsg⟩ := hsome2 e he
        refine ⟨tr1 ++ tr0, nm, cause, by simp [htr], ?_, ?_, hmsg⟩
        · intro hcl
          rcases List.mem_append.mp hcl with hcl | hcl
          · exact hnone1 rfl hcl
          · exact hncl hcl
        · simp only [List.map_cons, List.mem_cons]
          exact Or.inr hnm

/-! ## Fixtures for the Initialize claims -/

/-- A venue constructor that always succeeds. -/
def okNewFunc : NewFunc := fun _ => Except.ok ()

/-- A venue constructor that always fails. -/
def badNewFunc : NewFunc := fun _ => Except.error "bad credentials"

/-- Config with a bound address and one configured venue. -/
def c2cfg : Config := ⟨⟨false, "127.0.0.1:8080"⟩, some [("zaif", "apikey")]⟩

/-- Config with an empty server address and a nil `Exchanges` pointer. -/
def c3cfg : Config := ⟨⟨false, ""⟩, none⟩

/-- Config with an empty server address and two configured venues. -/
def c4cfgNoSrv : Config := ⟨⟨false, ""⟩, some [("zaif", "k1"), ("bitflyer", "k2")]⟩

/-- Config with a bound address and two configured venues. -/
def c4cfgSrv : Config :=
  ⟨⟨false, "127.0.0.1:8080"⟩, some [("zaif", "k1"), ("bitflyer", "k2")]⟩

/-- Field tags of the exchanges-config struct for the two-venue fixtures. -/
def c4tags : List String := ["zaif", "bitflyer"]

/-- Registered constructors: the first venue constructs, the second fails. -/
def c4regs : List (String × Option NewFunc) :=
  [("zaif", some okNewFunc), ("bitflyer", some badNewFunc)]

/-- Config with a bound address and a nil `Exchanges` pointer. -/
def c10cfg : Config := ⟨⟨false, "127.0.0.1:8080"⟩, none⟩

/-! ## Claim theorems for C2, C3, C4, C10 -/

/-- Claim C2 (code bug): with a non-empty address whose bind fails inside
the wait window, `initHttpServer` does return the wrapped error, but
`Initialize` builds an error message from it and discards it (the source
lacks the `return`), proceeds to construct the configured venue, and
returns `nil` — contradicting the claim (and the spec) that a bind
failure is fatal to `Initialize`. -/
theorem Initialize_swallows_bind_error :
    (initHttpServer c2cfg (some "address already in use")).2 =
      some (wrapErr "can not start http server (127.0.0.1:8080)"
        "address already in use") ∧
    Initialize c2cfg ["zaif"] [("zaif", some okNewFunc)]
        (some "address already in use") =
      Outcome.ok (⟨some ⟨"127.0.0.1:8080"⟩, ["zaif"]⟩,
        [Event.exchangeCreate "zaif", Event.exchangeInit "zaif"], none) := by
  constructor
  · rfl
  · rfl

/-- Claim C3, counterexample: with an empty server address, `Initialize`
succeeds with a nil server handle, but the subsequent `Finalize`
dereferences the nil handle and panics instead of returning normally. -/
theorem Finalize_nil_server_panics :
    Initialize c3cfg ["zaif"] [("zaif", some okNewFunc)] none =
      Outcome.ok (⟨none, []⟩, [], none) ∧
    Finalize ⟨none, []⟩ =
      Outcome.panicked "invalid memory address or nil pointer dereference" := by
  constructor
  · rfl
  · rfl

/-- Claim C3, amended: with an empty server address the control-plane
server never starts (no handle, no bind, no error) and `Initialize`'s
server step succeeds; but a subsequent `Finalize` panics with a nil
pointer dereference on the absent server handle rather than returning
normally. -/
theorem initHttpServer_empty_addr_spec (cfg : Config) (fieldTags : List String)
    (registered : List (String × Option NewFunc)) (bindErr : Option String)
    (h : cfg.server.addrPort = "") :
    initHttpServer cfg bindErr = (none, none) ∧
    ∀ st tr res, Initialize cfg fieldTags registered bindErr = Outcome.ok (st, tr, res) →
      Finalize st = Outcome.panicked "invalid memory address or nil pointer dereference" := by
  have h1 : initHttpServer cfg bindErr = (none, none) := by
    simp [initHttpServer, h]
  refine ⟨h1, ?_⟩
  intro st tr res hinit
  unfold Initialize at hinit
  have h2 := initExchangesLoop_server_eq cfg fieldTags registered _ st tr res hinit
  have h3 : st.gracefulServer = none := by
    rw [h2]
    simp [h1]
  simp [Finalize, h3]

/-- Witness for the amended C3 theorem at a concrete input. -/
theorem initHttpServer_empty_addr_witness :
    initHttpServer c3cfg none = (none, none) ∧
    Finalize ⟨none, []⟩ =
      Outcome.panicked "invalid memory address or nil pointer dereference" :=
  ⟨(initHttpServer_empty_addr_spec c3cfg [] [] none rfl).1,
   (initHttpServer_empty_addr_spec c3cfg [] [] none rfl).2 ⟨none, []⟩ [] none rfl⟩

/-- Claim C4, counterexample: with an empty server address and a failing
second venue constructor, `Initialize` panics in `Finalize` (nil server
handle) instead of returning a wrapped error; and with a bound address,
the cleanup on venue-construction failure touches only the control-plane
server (`serverClose`) — the already-constructed venue stays in the
registry and no venue-teardown event exists in the trace. -/
theorem Initialize_venue_failure_cex :
    Initialize c4cfgNoSrv c4tags c4regs none =
      Outcome.panicked "invalid memory address or nil pointer dereference" ∧
    Initialize c4cfgSrv c4tags c4regs none =
      Outcome.ok (⟨some ⟨"127.0.0.1:8080"⟩, ["zaif"]⟩,
        [Event.exchangeCreate "zaif", Event.exchangeInit "zaif",
         Event.exchangeCreate "bitflyer", Event.serverClose],
        some (wrapErr "can not create exchange of bitflyer" "bad credentials")) := by
  constructor
  · rfl
  · rfl

/-- Claim C4, amended: for every configuration whose server address is
non-empty (so the server handle exists), `Initialize` returns rather than
panics; when it returns an error, the error is the wrapped message naming
a registered venue, the trace ends with the blocking close of the
control-plane server and nothing follows it (the loop aborts, so no venue
after the failing one is constructed), and every venue constructed before
the failure remains in the registry — already-constructed venues receive
no cleanup. On success no server close happens. -/
theorem Initialize_venue_failure_spec (cfg : Config) (fieldTags : List String)
    (registered : List (String × Option NewFunc)) (bindErr : Option String)
    (h : cfg.server.addrPort ≠ "") :
    ∃ st tr res, Initialize cfg fieldTags registered bindErr = Outcome.ok (st, tr, res) ∧
      (∀ n, Event.exchangeInit n ∈ tr → n ∈ st.exchanges) ∧
      (res = none → Event.serverClose ∉ tr) ∧
      (∀ e, res = some e → ∃ tr0 nm cause, tr = tr0 ++ [Event.serverClose] ∧
        Event.serverClose ∉ tr0 ∧ nm ∈ registered.map Prod.fst ∧
        e = wrapErr ("can not create exchange of " ++ nm) cause) := by
  have hsrv : (initHttpServer cfg bindErr).1 = some ⟨cfg.server.addrPort⟩ := by
    unfold initHttpServer
    rw [if_neg h]
    cases bindErr <;> rfl
  have hh : ({ gracefulServer := (initHttpServer cfg bindErr).1, exchanges := [] } :
      IntegratorState).gracefulServer ≠ none := by
    simp [hsrv]
  obtain ⟨st1, tr, res, heq, _, _, hinit, hnone, hfail⟩ :=
    initExchangesLoop_spec cfg fieldTags registered _ hh
  unfold Initialize
  exact ⟨st1, tr, res, heq, hinit, hnone, hfail⟩

/-- Witness for the amended C4 theorem at a concrete input. -/
theorem Initialize_venue_failure_witness :
    ∃ st tr res, Initialize c4cfgSrv c4tags c4regs none = Outcome.ok (st, tr, res) ∧
      (∀ n, Event.exchangeInit n ∈ tr → n ∈ st.exchanges) ∧
      (res = none → Event.serverClose ∉ tr) ∧
      (∀ e, res = some e → ∃ tr0 nm cause, tr = tr0 ++ [Event.serverClose] ∧
        Event.serverClose ∉ tr0 ∧ nm ∈ c4regs.map Prod.fst ∧
        e = wrapErr ("can not create exchange of " ++ nm) cause) :=
  Initialize_venue_failure_spec c4cfgSrv c4tags c4regs none (by decide)

/-- Claim C10: for every configuration whose `Exchanges` sub-document is
a nil pointer, `Initialize` constructs zero venue connectors (the trace
is empty), leaves the live venue registry empty, and returns `nil`, for
every field-tag list, every set of registered venue constructors and
every bind outcome. -/
theorem Initialize_nil_exchanges_ok (cfg : Config) (fieldTags : List String)
    (registered : List (String × Option NewFunc)) (bindErr : Option String)
    (h : cfg.exchanges = none) :
    Initialize cfg fieldTags registered bindErr =
      Outcome.ok (⟨(initHttpServer cfg bindErr).1, []⟩, [], none) := by
  unfold Initialize
  exact initExchangesLoop_nilExchanges cfg fieldTags h registered _

/-- Witness for C10 at a concrete input. -/
theorem Initialize_nil_exchanges_witness :
    Initialize c10cfg ["zaif"] [("zaif", some okNewFunc)] none =
      Outcome.ok (⟨some ⟨"127.0.0.1:8080"⟩, []⟩, [], none) :=
  Initialize_nil_exchanges_ok c10cfg ["zaif"] [("zaif", some okNewFunc)] none rfl

/-- Witness for C7 at concrete inputs: streaming failure (arbitrage never
invoked), arbitrage-create failure after successful streaming (streaming
left running), and the all-success case returning `nil`. -/
theorem Start_spec_witness :
    (Start allOkRobot [failEx] =
       ((startStreaming allOkRobot [failEx]).1,
        some (wrapErr "can not start streaming" (startStreamErrMsg "bitflyer" "boom"))) ∧
     Event.createArb ∉ (Start allOkRobot [failEx]).1) ∧
    (Start arbFailRobot [okEx] = (fullStartSeq [okEx] ++ [Event.createArb],
        some (wrapErr "can not start arbitarage"
          (wrapErr "can not create arbitrage algorithm" "noarb"))) ∧
     (∀ nm cid, Event.stopStream nm cid ∉ (Start arbFailRobot [okEx]).1) ∧
     Event.loopLaunched ∉ (Start arbFailRobot [okEx]).1) ∧
    (Start allOkRobot [okEx]).2 = none :=
  ⟨(Start_spec allOkRobot [failEx]).1 (startStreamErrMsg "bitflyer" "boom") (by decide),
   ((Start_spec arbFailRobot [okEx]).2 (by decide)).1 "noarb" rfl,
   ((Start_spec allOkRobot [okEx]).2 (by decide)).2 rfl⟩

end ACT
